import Mathlib

/-!
Verification development for the Keihitsu manga-continuation pipeline.

The repository source in scope is the React dashboard frontend
(`frontend/src/apiClient.ts`, `frontend/src/components/StepCard.tsx`,
`frontend/src/components/PipelineDashboard.tsx`).  Those files are embedded
shallowly below: the `PipelineApi` client surface, the `callStep` HTTP
helper, the dashboard state (`running` flags, activity log, error snackbar,
text inputs) and the `runStep` try/catch/finally driver.

Backend components that the specification describes but whose code is not in
scope (the Continuation Engine's page-batched commit, the branch-id
derivation of the Branch Suggestion stage, mainline tip resolution) are
modelled from the specification text; each such definition says so in its
doc comment.
-/

namespace Keihitsu

/-- The `StepKey` union type of `PipelineDashboard.tsx`: one key per
dashboard step. -/
inductive StepKey where
  | chapters
  | vlm
  | novel
  | anchors
  | branches
  | characters
  | scales
  | continueMain
  | branchPlan
  | branchGenerate
  | branchContinue
  deriving DecidableEq, Repr

/-- The string value each `StepKey` union member denotes in TypeScript
(used by the template literals in `runStep`). -/
def stepKeyName : StepKey → String
  | .chapters => "chapters"
  | .vlm => "vlm"
  | .novel => "novel"
  | .anchors => "anchors"
  | .branches => "branches"
  | .characters => "characters"
  | .scales => "scales"
  | .continueMain => "continueMain"
  | .branchPlan => "branchPlan"
  | .branchGenerate => "branchGenerate"
  | .branchContinue => "branchContinue"

/-- The endpoint path each `PipelineApi` member passes to `callStep` in
`apiClient.ts`, up to (and excluding) any query string. -/
def stepEndpointBase : StepKey → String
  | .chapters => "/api/steps/chapters"
  | .vlm => "/api/steps/vlm"
  | .novel => "/api/steps/novel"
  | .anchors => "/api/steps/anchors"
  | .branches => "/api/steps/branches"
  | .characters => "/api/steps/characters"
  | .scales => "/api/steps/scales"
  | .continueMain => "/api/steps/continue-main"
  | .branchPlan => "/api/steps/branch-plan"
  | .branchGenerate => "/api/steps/branch-generate"
  | .branchContinue => "/api/steps/branch-continue"

/-- The step-invoking members of the `PipelineApi` object literal in
`apiClient.ts`, in source order (the `health` member is not a step
invocation: it does a plain GET and calls no step endpoint). -/
def pipelineApiOps : List StepKey :=
  [.chapters, .vlm, .novel, .anchors, .branches, .characters, .scales,
   .continueMain, .branchPlan, .branchGenerate, .branchContinue]

/-- The operational entrypoints named in the specification's external
interface section (one operation per stage), excluding the aggregate
`run_all`. -/
inductive Entrypoint where
  | run_chapters
  | run_vlm
  | run_refine
  | run_novel
  | run_anchors
  | run_branches
  | run_characters
  | run_scales
  | continue_mainline
  | branch_plan
  | branch_generate
  | branch_continue
  deriving DecidableEq, Repr

/-- The stage slug of each specification entrypoint, as it appears in the
backend step URLs consumed by the client (`/api/steps/<slug>`). -/
def entrypointSlug : Entrypoint → String
  | .run_chapters => "chapters"
  | .run_vlm => "vlm"
  | .run_refine => "refine"
  | .run_novel => "novel"
  | .run_anchors => "anchors"
  | .run_branches => "branches"
  | .run_characters => "characters"
  | .run_scales => "scales"
  | .continue_mainline => "continue-main"
  | .branch_plan => "branch-plan"
  | .branch_generate => "branch-generate"
  | .branch_continue => "branch-continue"

/-- A client invocation corresponds to a specification entrypoint when its
endpoint is the step URL of that entrypoint's stage. -/
def corresponds (e : Entrypoint) (k : StepKey) : Bool :=
  stepEndpointBase k == "/api/steps/" ++ entrypointSlug e

/-- The HTTP response fields `callStep` inspects: `ok`, `status`, the body
text (read by `res.text()`) and the parsed JSON body (read by
`res.json()`, represented abstractly by its source text's parse). -/
structure Response where
  ok : Bool
  status : Nat
  text : String
  json : String

/-- The `callStep` helper of `apiClient.ts`, modelled as a function of the
`fetch` response: on a non-ok response it throws
`Request failed: <status> <body text>`; otherwise it returns the parsed
JSON body. -/
def callStep (res : Response) : Except String String :=
  if res.ok then
    .ok res.json
  else
    .error ("Request failed: " ++ toString res.status ++ " " ++ res.text)

/-- The `PipelineDashboard` component state: the `running` record (one flag
per step), the activity `logs`, the `error` snackbar content, and the two
text inputs `timelinePath` and `branchId`. -/
structure DashState where
  running : StepKey → Bool
  logs : List String
  error : Option String
  timelinePath : String
  branchId : String

/-- The initial dashboard state created by the `useState` calls: every
running flag false, empty log, no error, empty text inputs. -/
def initialDashState : DashState where
  running := fun _ => false
  logs := []
  error := none
  timelinePath := ""
  branchId := ""

/-- `setRunning((prev) => ({ ...prev, [key]: v }))`: update one step's
running flag, leaving every other flag unchanged. -/
def setRunning (k : StepKey) (v : Bool) (s : DashState) : DashState :=
  { s with running := fun k2 => if k2 = k then v else s.running k2 }

/-- The `pushLog` helper: append one timestamped line to the activity log
(the timestamp string is threaded in as an argument, standing for
`new Date().toLocaleTimeString()`). -/
def pushLog (stamp msg : String) (s : DashState) : DashState :=
  { s with logs := s.logs ++ ["[" ++ stamp ++ "] " ++ msg] }

/-- The message logged when a step starts. -/
def startMsg (k : StepKey) : String :=
  "Starting step: " ++ stepKeyName k

/-- The message logged when a step's promise resolves (with the JSON
stringification of the response threaded in as a string). -/
def finishMsg (k : StepKey) (res : String) : String :=
  "Finished step: " ++ stepKeyName k ++ " (response: " ++ res ++ ")"

/-- The message logged when a step's promise rejects. -/
def errorMsg (k : StepKey) (msg : String) : String :=
  "Error in step " ++ stepKeyName k ++ ": " ++ msg

/-- The `try` block of `runStep`: set the step running, log the start
entry, await the step function (its settled outcome is the `outcome`
argument: resolved JSON string or rejection message), and log the finish
entry.  A rejection aborts the block, carrying the state reached so far. -/
def runStepTry (k : StepKey) (outcome : Except String String)
    (t1 t2 : String) (s : DashState) : Except (String × DashState) DashState :=
  let s2 := pushLog t1 (startMsg k) (setRunning k true s)
  match outcome with
  | .ok res => .ok (pushLog t2 (finishMsg k res) s2)
  | .error e => .error (e, s2)

/-- The `try`/`catch` of `runStep`: a rejection is caught, stored in the
error snackbar state, and logged; it is not rethrown. -/
def runStepCatch (k : StepKey) (outcome : Except String String)
    (t1 t2 : String) (s : DashState) : Except (String × DashState) DashState :=
  match runStepTry k outcome t1 t2 s with
  | .ok s2 => .ok s2
  | .error (e, s2) => .ok (pushLog t2 (errorMsg k e) { s2 with error := some e })

/-- The full `runStep` body including the `finally` clause, which clears
the step's running flag on both paths (and would re-raise an uncaught
rejection, were there one). -/
def runStepSettled (k : StepKey) (outcome : Except String String)
    (t1 t2 : String) (s : DashState) : Except (String × DashState) DashState :=
  match runStepCatch k outcome t1 t2 s with
  | .ok s2 => .ok (setRunning k false s2)
  | .error (e, s2) => .error (e, setRunning k false s2)

/-- The state after `runStep(key, fn)` settles. -/
def runStep (k : StepKey) (outcome : Except String String)
    (t1 t2 : String) (s : DashState) : DashState :=
  match runStepSettled k outcome t1 t2 s with
  | .ok s2 => s2
  | .error (_, s2) => s2

/-- Whether the Run control of a step is disabled in the rendered
dashboard: `StepCard` buttons are disabled exactly by their `running`
prop, while the three branch-tool buttons are additionally disabled while
the Branch ID input is empty (`disabled={running.branchPlan || !branchId}`
and likewise for generate/continue). -/
def runDisabled (s : DashState) : StepKey → Bool
  | .branchPlan => s.running .branchPlan || s.branchId == ""
  | .branchGenerate => s.running .branchGenerate || s.branchId == ""
  | .branchContinue => s.running .branchContinue || s.branchId == ""
  | k => s.running k

/-- The argument `PipelineDashboard` passes to `PipelineApi.continueMain`:
`timelinePath || undefined`, i.e. no argument when the input is empty. -/
def continueMainArg (timelinePath : String) : Option String :=
  if timelinePath == "" then none else some timelinePath

/-- The `timeline_path` field of the request body built by
`PipelineApi.continueMain`: `timelinePath ?? null`, with `none` standing
for JSON `null`. -/
def continueMainBody (tp : Option String) : Option String :=
  match tp with
  | some p => some p
  | none => none

/-! ### URI component encoding

`apiClient.ts` builds the three branch endpoints by appending
`encodeURIComponent(branchId)` to a fixed query prefix.  The JavaScript
`encodeURIComponent` keeps the unreserved characters
`A–Z a–z 0–9 - _ . ! ~ * ' ( )` and percent-encodes every other character
as the `%XX` uppercase-hex escapes of its UTF-8 bytes. -/

/-- Whether `encodeURIComponent` leaves a character unescaped (the
character codes of `A–Z`, `a–z`, `0–9`, `- _ . ! ~ * ' ( )`). -/
def unreservedChar (c : Char) : Bool :=
  (65 ≤ c.toNat && c.toNat ≤ 90) || (97 ≤ c.toNat && c.toNat ≤ 122) ||
  (48 ≤ c.toNat && c.toNat ≤ 57) ||
  c.toNat == 45 || c.toNat == 95 || c.toNat == 46 || c.toNat == 33 ||
  c.toNat == 126 || c.toNat == 42 || c.toNat == 39 || c.toNat == 40 ||
  c.toNat == 41

/-- The UTF-8 byte sequence of a Unicode code point. -/
def utf8Bytes (n : Nat) : List Nat :=
  if n < 128 then [n]
  else if n < 2048 then [192 + n / 64, 128 + n % 64]
  else if n < 65536 then [224 + n / 4096, 128 + n / 64 % 64, 128 + n % 64]
  else [240 + n / 262144, 128 + n / 4096 % 64, 128 + n / 64 % 64, 128 + n % 64]

/-- Uppercase hexadecimal digit character of a value below 16. -/
def hexDigit (n : Nat) : Char :=
  if n < 10 then Char.ofNat (48 + n) else Char.ofNat (55 + n)

/-- The three-character `%XX` escape of one byte. -/
def percentEncodeByte (b : Nat) : List Char :=
  [Char.ofNat 37, hexDigit (b / 16), hexDigit (b % 16)]

/-- `encodeURIComponent` on one character: unreserved characters pass
through, all others become the percent escapes of their UTF-8 bytes. -/
def encodeChar (c : Char) : List Char :=
  if unreservedChar c then [c] else (utf8Bytes c.toNat).flatMap percentEncodeByte

/-- JavaScript's `encodeURIComponent`, over the character list of the
input string. -/
def encodeURIComponent (s : List Char) : List Char :=
  s.flatMap encodeChar

/-- The numeric value of a hexadecimal digit character (digits and
uppercase letters), or `none`. -/
def hexVal (c : Char) : Option Nat :=
  if 48 ≤ c.toNat && c.toNat ≤ 57 then some (c.toNat - 48)
  else if 65 ≤ c.toNat && c.toNat ≤ 70 then some (c.toNat - 55)
  else none

/-- Percent-escape decoding restricted to single-byte (ASCII) escapes:
the left inverse of `encodeURIComponent` on ASCII input, witnessing that
the encoding carries the branch id without loss. -/
def decodeComponentAscii : List Char → Option (List Char)
  | [] => some []
  | c :: rest =>
    if c = Char.ofNat 37 then
      match rest with
      | h :: l :: rest2 =>
        match hexVal h, hexVal l with
        | some hv, some lv =>
          if hv * 16 + lv < 128 then
            (decodeComponentAscii rest2).map (fun t => Char.ofNat (hv * 16 + lv) :: t)
          else none
        | _, _ => none
      | _ => none
    else (decodeComponentAscii rest).map (fun t => c :: t)

/-- An HTTP request issued by the client: method and full request path
(the path's character list, query string included). -/
structure Request where
  method : String
  path : List Char

/-- The requests issued by one call of `PipelineApi.branchPlan(branchId)`:
a single POST to `/api/steps/branch-plan?branch_id=` followed by the
URI-encoded branch id (via `callStep`, which performs exactly one
`fetch`). -/
def branchPlanRequests (b : List Char) : List Request :=
  [⟨"POST", "/api/steps/branch-plan?branch_id=".data ++ encodeURIComponent b⟩]

/-- The requests issued by one call of `PipelineApi.branchGenerate`. -/
def branchGenerateRequests (b : List Char) : List Request :=
  [⟨"POST", "/api/steps/branch-generate?branch_id=".data ++ encodeURIComponent b⟩]

/-- The requests issued by one call of `PipelineApi.branchContinue`. -/
def branchContinueRequests (b : List Char) : List Request :=
  [⟨"POST", "/api/steps/branch-continue?branch_id=".data ++ encodeURIComponent b⟩]

/-! ### Spec-modelled backend components

The Continuation Engine, the Branch Suggestion stage's `branch_id`
derivation and mainline tip resolution live in the backend
(`backend/pipeline_core.py`, `manga_pipeline/`), which is not part of the
source in scope; the definitions below are modelled from the
specification text. -/

/-- Modelled from the spec: the outcome of one page-batch generation in a
Continuation Engine invocation (the backend Continuation Engine is not in
the source in scope).  A batch either yields its page summaries or
exhausts its generation retries. -/
inductive BatchResult where
  | ok (pages : List String)
  | failed
  deriving DecidableEq, Repr

/-- Modelled from the spec: assembling a generated chapter from its
sequential page batches.  Every batch must succeed; any failed batch
makes the whole invocation yield no chapter (spec section 4.7, failure
semantics). -/
def assembleChapter : List BatchResult → Option (List String)
  | [] => some []
  | .ok pages :: rest => (assembleChapter rest).map (fun t => pages ++ t)
  | .failed :: _ => none

/-- Modelled from the spec: the atomic per-chapter commit of a
Continuation Engine invocation over the committed-chapter corpus.  A
fully assembled chapter is appended; a failed invocation commits
nothing (spec section 4.7: no partial chapter is committed). -/
def commitContinuation (corpus : List (List String)) (batches : List BatchResult) :
    List (List String) :=
  match assembleChapter batches with
  | some pages => corpus ++ [pages]
  | none => corpus

/-- Modelled from the spec: the three fixed route kinds of a branch
suggestion. -/
inductive RouteKind where
  | behavioral
  | badEnd
  | wildcard
  deriving DecidableEq, Repr

/-- Modelled from the spec: the route-kind slug used in composed branch
identifiers (spec section 8's concrete scenario:
`ch_005_a001_b_behavioral`, `ch_005_a001_b_badend`,
`ch_005_a001_b_wildcard`). -/
def routeSlug : RouteKind → List Char
  | .behavioral => "behavioral".data
  | .badEnd => "badend".data
  | .wildcard => "wildcard".data

/-- Decimal digit character of a value below 10. -/
def digitChar (d : Nat) : Char := Char.ofNat (48 + d)

/-- Three-digit zero-padded decimal rendering of a number below 1000, as
in the spec's composed identifiers (`ch_005`, `a001`). -/
def pad3 (n : Nat) : List Char :=
  [digitChar (n / 100), digitChar (n / 10 % 10), digitChar (n % 10)]

/-- Modelled from the spec: the deterministic composed `branch_id` of the
Branch Suggestion stage (not in the source in scope), computed — not
generated — from chapter id, anchor id and route kind, in the
`ch_CCC_aAAA_b_<kind>` shape of the spec's concrete scenario. -/
def branchId (c a : Nat) (k : RouteKind) : List Char :=
  "ch_".data ++ pad3 c ++ "_a".data ++ pad3 a ++ "_b_".data ++ routeSlug k

/-- Modelled from the spec: mainline tip resolution of the Continuation
Engine (not in the source in scope) — the current tip is the highest
committed `chapter_id`, or nothing on an empty corpus. -/
def resolveMainlineTip : List Nat → Option Nat
  | [] => none
  | c :: rest => some (rest.foldl max c)

/-- Modelled from the spec: the corpus as seen by the Continuation
Engine's commit step — the mainline chapter ids plus the committed
branch chapters keyed by `branch_id`. -/
structure Corpus where
  mainline : List Nat
  branchChapters : List (List Char × Nat)

/-- Modelled from the spec: committing a branch-generated chapter (spec
section 4.7: it is stored under its own `branch_id` path and does not
alter mainline state). -/
def commitBranchChapter (corpus : Corpus) (b : List Char) (parentChapter : Nat) :
    Corpus :=
  { corpus with branchChapters := corpus.branchChapters ++ [(b, parentChapter)] }

/-! ### Helper lemmas -/

/-- `Char.ofNat` and `Char.toNat` cancel on valid low code points. -/
theorem toNat_ofNat_valid (n : Nat) (h : n < 55296) : (Char.ofNat n).toNat = n := by
  have hv : n.isValidChar := Or.inl h
  simp [Char.ofNat, hv, Char.toNat, Char.ofNatAux, UInt32.toNat]

/-- `hexVal` is a left inverse of `hexDigit` on nibble values. -/
theorem hexVal_hexDigit (m : Nat) (h : m < 16) : hexVal (hexDigit m) = some m := by
  interval_cases m <;> decide

/-- Unreserved characters are never the percent sign. -/
theorem unreserved_ne_percent (c : Char) (h : unreservedChar c = true) :
    c ≠ Char.ofNat 37 := by
  intro heq
  subst heq
  simp [unreservedChar] at h

/-- Decoding one encoded ASCII character recovers it. -/
theorem decode_encodeChar (c : Char) (hc : c.toNat < 128) (t : List Char) :
    decodeComponentAscii (encodeChar c ++ t) =
      (decodeComponentAscii t).map (fun r => c :: r) := by
  by_cases hu : unreservedChar c = true
  · rw [encodeChar, if_pos hu]
    have hne : c ≠ Char.ofNat 37 := unreserved_ne_percent c hu
    show decodeComponentAscii (c :: t) = _
    rw [decodeComponentAscii.eq_def]
    dsimp only
    rw [if_neg hne]
  · rw [encodeChar, if_neg hu]
    rw [utf8Bytes, if_pos hc]
    simp only [List.flatMap_cons, List.flatMap_nil, List.append_nil, percentEncodeByte]
    have h1 : hexVal (hexDigit (c.toNat / 16)) = some (c.toNat / 16) :=
      hexVal_hexDigit _ (by omega)
    have h2 : hexVal (hexDigit (c.toNat % 16)) = some (c.toNat % 16) :=
      hexVal_hexDigit _ (by omega)
    have h3 : c.toNat / 16 * 16 + c.toNat % 16 = c.toNat := by omega
    simp [decodeComponentAscii, h1, h2, h3, hc, Char.ofNat_toNat]

/-- ASCII percent-decoding is a left inverse of `encodeURIComponent` on
ASCII input. -/
theorem decode_encodeURIComponent (s : List Char) (h : ∀ c ∈ s, c.toNat < 128) :
    decodeComponentAscii (encodeURIComponent s) = some s := by
  induction s with
  | nil => rfl
  | cons c rest ih =>
    have hc : c.toNat < 128 := h c (List.mem_cons_self c rest)
    have hrest : ∀ x ∈ rest, x.toNat < 128 := fun x hx => h x (List.mem_cons_of_mem c hx)
    rw [encodeURIComponent, List.flatMap_cons]
    rw [decode_encodeChar c hc]
    rw [← encodeURIComponent, ih hrest]
    rfl

/-- `digitChar` is injective on decimal digit values. -/
theorem digitChar_inj (d e : Nat) (hd : d < 10) (he : e < 10)
    (h : digitChar d = digitChar e) : d = e := by
  have hd2 := toNat_ofNat_valid (48 + d) (by omega)
  have he2 := toNat_ofNat_valid (48 + e) (by omega)
  have h2 : (digitChar d).toNat = (digitChar e).toNat := by rw [h]
  rw [digitChar, digitChar, hd2, he2] at h2
  omega

/-- `pad3` is injective below 1000. -/
theorem pad3_inj (m n : Nat) (hm : m < 1000) (hn : n < 1000)
    (h : pad3 m = pad3 n) : m = n := by
  rw [pad3, pad3] at h
  injection h with h1 h
  injection h with h2 h
  injection h with h3 h
  have e1 := digitChar_inj _ _ (by omega) (by omega) h1
  have e2 := digitChar_inj _ _ (by omega) (by omega) h2
  have e3 := digitChar_inj _ _ (by omega) (by omega) h3
  omega

/-- `pad3` always renders exactly three characters. -/
theorem pad3_length (n : Nat) : (pad3 n).length = 3 := rfl

/-- Equal branch ids of the same route kind come from equal chapter and
anchor ids. -/
theorem branchId_inj (c a c2 a2 : Nat) (k : RouteKind)
    (hc : c < 1000) (ha : a < 1000) (hc2 : c2 < 1000) (ha2 : a2 < 1000)
    (h : branchId c a k = branchId c2 a2 k) : c = c2 ∧ a = a2 := by
  rw [branchId, branchId] at h
  simp only [List.append_assoc] at h
  have h2 := List.append_cancel_left h
  have h3 := List.append_inj h2 (by rw [pad3_length, pad3_length])
  obtain ⟨hpadc, h4⟩ := h3
  have h5 := List.append_cancel_left h4
  have h6 := List.append_inj h5 (by rw [pad3_length, pad3_length])
  obtain ⟨hpada, -⟩ := h6
  exact ⟨pad3_inj _ _ hc hc2 hpadc, pad3_inj _ _ ha ha2 hpada⟩

/-- A failed page batch poisons the whole chapter assembly. -/
theorem assembleChapter_none_of_failed (batches : List BatchResult)
    (h : BatchResult.failed ∈ batches) : assembleChapter batches = none := by
  induction batches with
  | nil => cases h
  | cons b rest ih =>
    cases b with
    | failed => rfl
    | ok pages =>
      have hrest : BatchResult.failed ∈ rest := by
        rcases List.mem_cons.mp h with hh | hh
        · cases hh
        · exact hh
      simp [assembleChapter, ih hrest]

/-- `List.foldl max` computes an upper bound attained by the seed or a
list element. -/
theorem foldl_max_spec (l : List Nat) :
    ∀ a, (l.foldl max a = a ∨ l.foldl max a ∈ l) ∧ a ≤ l.foldl max a ∧
      ∀ x ∈ l, x ≤ l.foldl max a := by
  induction l with
  | nil => intro a; simp
  | cons b rest ih =>
    intro a
    obtain ⟨hmem, hle, hall⟩ := ih (max a b)
    refine ⟨?_, ?_, ?_⟩
    · rcases hmem with h | h
      · rcases max_choice a b with hm | hm
        · left; rw [List.foldl_cons, h, hm]
        · right; rw [List.foldl_cons, h, hm]; exact List.mem_cons_self b rest
      · right; rw [List.foldl_cons]; exact List.mem_cons_of_mem b h
    · calc a ≤ max a b := Nat.le_max_left a b
        _ ≤ (b :: rest).foldl max a := by rw [List.foldl_cons]; exact hle
    · intro x hx
      rcases List.mem_cons.mp hx with h | h
      · subst h
        calc x ≤ max a x := Nat.le_max_right a x
          _ ≤ (x :: rest).foldl max a := by rw [List.foldl_cons]; exact hle
      · rw [List.foldl_cons]; exact hall x h

/-! ### Claim theorems -/

/-- Claim C8: for every step key and settled outcome of the step function,
`runStep` never propagates a rejection to its caller (the settled
computation including the `finally` clause always yields a state), and
after it settles the running flag of that step is false, whether the step
function resolved or rejected. -/
theorem runStep_settles_ok_and_clears_running (k : StepKey)
    (outcome : Except String String) (t1 t2 : String) (s : DashState) :
    runStepSettled k outcome t1 t2 s = .ok (runStep k outcome t1 t2 s) ∧
    (runStep k outcome t1 t2 s).running k = false := by
  cases outcome <;>
    simp [runStepSettled, runStepCatch, runStepTry, runStep, setRunning, pushLog]

/-- Claim C10: the activity log is append-only and ordered: `pushLog` only
appends one entry, and every `runStep` invocation appends its
`Starting step` entry followed by exactly one matching `Finished step` or
`Error in step` entry, leaving all previous entries in place and in
order. -/
theorem log_append_only_runStep (k : StepKey) (outcome : Except String String)
    (t1 t2 : String) (s : DashState) :
    (∀ stamp msg s2, (pushLog stamp msg s2).logs =
      s2.logs ++ ["[" ++ stamp ++ "] " ++ msg]) ∧
    (runStep k outcome t1 t2 s).logs =
      s.logs ++ ["[" ++ t1 ++ "] " ++ startMsg k,
        match outcome with
        | .ok res => "[" ++ t2 ++ "] " ++ finishMsg k res
        | .error e => "[" ++ t2 ++ "] " ++ errorMsg k e] := by
  refine ⟨fun stamp msg s2 => rfl, ?_⟩
  cases outcome <;>
    simp [runStep, runStepSettled, runStepCatch, runStepTry, pushLog, setRunning]

/-- Claim C7: a failing run of any step appends an error log entry that
carries both the step key and the message of the error that was raised,
as infixes of the entry text. -/
theorem failed_step_log_carries_key_and_cause (k : StepKey) (m t1 t2 : String)
    (s : DashState) :
    (runStep k (.error m) t1 t2 s).logs =
      s.logs ++ ["[" ++ t1 ++ "] " ++ startMsg k,
        "[" ++ t2 ++ "] " ++ errorMsg k m] ∧
    (stepKeyName k).data <:+: ("[" ++ t2 ++ "] " ++ errorMsg k m).data ∧
    m.data <:+: ("[" ++ t2 ++ "] " ++ errorMsg k m).data := by
  refine ⟨?_, ?_, ?_⟩
  · simp [runStep, runStepSettled, runStepCatch, runStepTry, pushLog, setRunning]
  · rw [errorMsg]
    refine ⟨("[" ++ t2 ++ "] " ++ "Error in step ").data, (": " ++ m).data, ?_⟩
    simp [String.data_append, List.append_assoc]
  · rw [errorMsg]
    refine ⟨("[" ++ t2 ++ "] " ++ ("Error in step " ++ stepKeyName k ++ ": ")).data,
      [], ?_⟩
    simp [String.data_append, List.append_assoc]

/-- Claim C9: `callStep` throws exactly on a non-ok response; the thrown
message carries the response status and body text, and an ok response
yields the parsed JSON body. -/
theorem callStep_throw_iff_not_ok (res : Response) :
    ((∃ e, callStep res = .error e) ↔ res.ok = false) ∧
    (res.ok = true → callStep res = .ok res.json) ∧
    (res.ok = false →
      callStep res =
        .error ("Request failed: " ++ toString res.status ++ " " ++ res.text) ∧
      (toString res.status).data <:+:
        ("Request failed: " ++ toString res.status ++ " " ++ res.text).data ∧
      res.text.data <:+:
        ("Request failed: " ++ toString res.status ++ " " ++ res.text).data) := by
  obtain ⟨ok, status, text, json⟩ := res
  cases ok
  · refine ⟨?_, ?_, ?_⟩
    · simp [callStep]
    · intro h
      cases h
    · intro _
      refine ⟨rfl, ?_, ?_⟩
      · exact ⟨"Request failed: ".data, (" " ++ text).data,
          by simp [String.data_append, List.append_assoc]⟩
      · exact ⟨("Request failed: " ++ toString status ++ " ").data, [],
          by simp [String.data_append, List.append_assoc]⟩
  · refine ⟨?_, ?_, ?_⟩
    · simp [callStep]
    · intro _
      rfl
    · intro h
      cases h

/-- Claim C9 witness: a concrete 500 response makes `callStep` throw the
message carrying status and body. -/
theorem callStep_throw_iff_not_ok_witness :
    callStep ⟨false, 500, "boom", ""⟩ = .error "Request failed: 500 boom" := by
  have h := ((callStep_throw_iff_not_ok ⟨false, 500, "boom", ""⟩).2.2 rfl).1
  exact h

/-- Claim C1 (counterexample): the client surface has no invocation
corresponding to `run_refine`: no step-invoking `PipelineApi` member calls
the refine stage endpoint. -/
theorem pipelineApi_refine_missing :
    pipelineApiOps.countP (corresponds .run_refine) = 0 := by decide

/-- Claim C1 (amended): every specification entrypoint except `run_refine`
has exactly one corresponding `PipelineApi` invocation; `run_refine` has
none. -/
theorem pipelineApi_entrypoints_cover (e : Entrypoint)
    (h : e ≠ Entrypoint.run_refine) :
    pipelineApiOps.countP (corresponds e) = 1 := by
  cases e <;> first
    | exact absurd rfl h
    | decide

/-- Claim C1 witness: `run_chapters` differs from `run_refine` and has
exactly one corresponding invocation. -/
theorem pipelineApi_entrypoints_cover_witness :
    Entrypoint.run_chapters ≠ Entrypoint.run_refine ∧
    pipelineApiOps.countP (corresponds .run_chapters) = 1 :=
  ⟨by decide, pipelineApi_entrypoints_cover .run_chapters (by decide)⟩

/-- Claim C2 (counterexample): the Run control is not disabled exactly
when the step's running flag is true: in the initial dashboard state the
Plan Branch button is disabled (empty Branch ID input) although the
`branchPlan` running flag is false. -/
theorem runDisabled_not_exactly_running :
    runDisabled initialDashState .branchPlan = true ∧
    initialDashState.running .branchPlan = false :=
  ⟨rfl, rfl⟩

/-- Claim C2 (amended): a step's Run control is disabled whenever its
running flag is true (the three branch-tool buttons are additionally
disabled while the Branch ID input is empty), so while a step invocation
is in flight no second invocation of the same step can be started from the
dashboard. -/
theorem running_implies_disabled (s : DashState) (k : StepKey)
    (h : s.running k = true) : runDisabled s k = true := by
  cases k <;> simp [runDisabled] at h ⊢ <;> simp [h]

/-- Claim C2 witness: with the vlm step in flight its Run control is
disabled. -/
theorem running_implies_disabled_witness :
    (setRunning .vlm true initialDashState).running .vlm = true ∧
    runDisabled (setRunning .vlm true initialDashState) .vlm = true :=
  ⟨rfl, running_implies_disabled _ _ rfl⟩

/-- Claim C3: the Continuation Engine's per-chapter commit is atomic: an
invocation with any failed page batch (in particular after N-1 successful
batches) commits no GeneratedChapter at all, and a retry of the same
invocation behaves exactly as a fresh run from batch 1 (no partial state
survives the failed attempt). -/
theorem continuation_commit_atomic (corpus : List (List String))
    (batches : List BatchResult) (h : BatchResult.failed ∈ batches) :
    commitContinuation corpus batches = corpus ∧
    ∀ batches2, commitContinuation (commitContinuation corpus batches) batches2 =
      commitContinuation corpus batches2 := by
  have hnone := assembleChapter_none_of_failed batches h
  have h1 : commitContinuation corpus batches = corpus := by
    rw [commitContinuation, hnone]
  exact ⟨h1, fun batches2 => by rw [h1]⟩

/-- Claim C3 witness: one failed batch after a successful batch commits
nothing. -/
theorem continuation_commit_atomic_witness :
    commitContinuation [["c1"]] [.ok ["p1"], .failed] = [["c1"]] :=
  (continuation_commit_atomic [["c1"]] [.ok ["p1"], .failed] (by decide)).1

/-- Claim C4: `branch_id` is a deterministic, collision-free function of
chapter id, anchor id and route kind: two anchors differing in
`(chapter_id, anchor_id)` get different branch ids for the same route
kind, rerunning the suggestion yields the identical id, and the spec's
concrete scenario id is reproduced. -/
theorem branchId_deterministic_collision_free (c a c2 a2 : Nat) (k : RouteKind)
    (hc : c < 1000) (ha : a < 1000) (hc2 : c2 < 1000) (ha2 : a2 < 1000)
    (hne : (c, a) ≠ (c2, a2)) :
    branchId c a k ≠ branchId c2 a2 k ∧
    branchId c a k = branchId c a k ∧
    branchId 5 1 .behavioral = "ch_005_a001_b_behavioral".data := by
  refine ⟨fun heq => ?_, rfl, by decide⟩
  obtain ⟨ec, ea⟩ := branchId_inj c a c2 a2 k hc ha hc2 ha2 heq
  exact hne (by rw [ec, ea])

/-- Claim C4 witness: anchors 1 and 2 of chapter 5 get different
behavioral branch ids. -/
theorem branchId_deterministic_collision_free_witness :
    branchId 5 1 .behavioral ≠ branchId 5 2 .behavioral :=
  (branchId_deterministic_collision_free 5 1 5 2 .behavioral (by decide) (by decide)
    (by decide) (by decide) (by decide)).1

/-- Claim C5: the mainline continuation invocation carries exactly the
supplied non-empty timeline path override, carries null when no override
is supplied, and (modelled from the spec) the Continuation Engine then
resolves the tip as the highest committed chapter id. -/
theorem continueMain_override_and_tip (tp : String) (committed : List Nat) :
    (tp ≠ "" → continueMainBody (continueMainArg tp) = some tp) ∧
    (tp = "" → continueMainBody (continueMainArg tp) = none) ∧
    (∀ c, resolveMainlineTip committed = some c →
      c ∈ committed ∧ ∀ x ∈ committed, x ≤ c) := by
  refine ⟨?_, ?_, ?_⟩
  · intro h
    simp [continueMainArg, continueMainBody, h]
  · intro h
    subst h
    rfl
  · intro c hc
    cases committed with
    | nil => cases hc
    | cons b rest =>
      rw [resolveMainlineTip] at hc
      injection hc with hc
      obtain ⟨hmem, hle, hall⟩ := foldl_max_spec rest b
      subst hc
      constructor
      · rcases hmem with h | h
        · rw [h]
          exact List.mem_cons_self b rest
        · exact List.mem_cons_of_mem b h
      · intro x hx
        rcases List.mem_cons.mp hx with h | h
        · subst h
          exact hle
        · exact hall x h

/-- Claim C5 witness: a concrete override is carried verbatim, the empty
input is carried as null, and the tip of chapters 1, 3, 2 is chapter 3. -/
theorem continueMain_override_and_tip_witness :
    continueMainBody (continueMainArg "alt/dir") = some "alt/dir" ∧
    continueMainBody (continueMainArg "") = none ∧
    (3 ∈ [1, 3, 2] ∧ ∀ x ∈ [1, 3, 2], x ≤ 3) :=
  ⟨(continueMain_override_and_tip "alt/dir" []).1 (by decide),
   (continueMain_override_and_tip "" []).2.1 rfl,
   (continueMain_override_and_tip "" [1, 3, 2]).2.2 3 (by decide)⟩

/-- Claim C6: each branch operation issues exactly one POST request to its
own endpoint with the branch id URI-encoded into the `branch_id`
parameter; the encoding is lossless on ASCII ids (decoding recovers the id
unmodified), and (modelled from the spec) committing a branch-generated
chapter leaves mainline state unchanged. -/
theorem branch_requests_faithful (b : List Char) (h : ∀ c ∈ b, c.toNat < 128) :
    (branchPlanRequests b).length = 1 ∧
    (branchGenerateRequests b).length = 1 ∧
    (branchContinueRequests b).length = 1 ∧
    (branchPlanRequests b).map Request.path =
      ["/api/steps/branch-plan?branch_id=".data ++ encodeURIComponent b] ∧
    (branchGenerateRequests b).map Request.path =
      ["/api/steps/branch-generate?branch_id=".data ++ encodeURIComponent b] ∧
    (branchContinueRequests b).map Request.path =
      ["/api/steps/branch-continue?branch_id=".data ++ encodeURIComponent b] ∧
    decodeComponentAscii (encodeURIComponent b) = some b ∧
    ∀ corpus pc, (commitBranchChapter corpus b pc).mainline = corpus.mainline :=
  ⟨rfl, rfl, rfl, rfl, rfl, rfl, decode_encodeURIComponent b h,
   fun _ _ => rfl⟩

/-- Claim C6 witness: the spec scenario's branch id round-trips through
the URI encoding. -/
theorem branch_requests_faithful_witness :
    decodeComponentAscii (encodeURIComponent "ch_005_a001_b_behavioral".data) =
      some "ch_005_a001_b_behavioral".data :=
  (branch_requests_faithful "ch_005_a001_b_behavioral".data (by decide)).2.2.2.2.2.2.1

end Keihitsu
